import Mathlib

/-!
# Verification of the hexagonal tile renderer (libtiled)

Shallow embedding of `src/libtiled/hexagonalrenderer.cpp` and
`src/libtiled/workspace.h`.  Machine `int` arithmetic is modelled by `Int`
(`&~1` and `/` are translated explicitly below); `qreal` pixel coordinates
are modelled by `ℚ`.  Types that live in headers outside the corpus
(`Map`, the stagger enums, `TileLayer` accessors, `doStaggerX`/`doStaggerY`)
are modelled from the specification and marked as such.
-/

namespace Tiled

/-- C++ integer division truncates toward zero (`Int.tdiv`). -/
def cppDiv (a b : Int) : Int := Int.tdiv a b

/-- C++ `x & ~1` on a two's-complement `int`: clears the least significant
bit, i.e. rounds down (toward `-∞`) to an even number. -/
def clearLSB (x : Int) : Int := x - x % 2

/-- Modelled from the spec: map orientation; `RenderParams` only compares it
against `Hexagonal` (`map.h` is not part of the corpus). -/
inductive Orientation where
  | Orthogonal
  | Isometric
  | Staggered
  | Hexagonal
deriving DecidableEq, Repr

/-- Modelled from the spec: the stagger axis, `staggerAxis ∈ {X, Y}`. -/
inductive StaggerAxis where
  | X
  | Y
deriving DecidableEq, Repr

/-- Modelled from the spec: the stagger parity, `staggerIndex ∈ {Odd, Even}`.
The neighbor lookups use the raw enum value in `(index & 1) ^ staggerIndex`;
consistency with `staggerEven = (staggerIndex == StaggerEven)` fixes the
numeric values `Odd ↦ 0`, `Even ↦ 1`. -/
inductive StaggerIndex where
  | Odd
  | Even
deriving DecidableEq, Repr

/-- The numeric value of the `StaggerIndex` enum, used by the neighbor
lookups (`(y & 1) ^ map()->staggerIndex()`). -/
def StaggerIndex.val : StaggerIndex → Int
  | .Odd => 0
  | .Even => 1

/-- Modelled from the spec: the map-wide geometry settings read by the
renderer (`orientation`, `staggerAxis`, `staggerIndex`, `hexSideLength`). -/
structure GameMap where
  orientation : Orientation
  staggerAxis : StaggerAxis
  staggerIndex : StaggerIndex
  hexSideLength : Int
deriving DecidableEq, Repr

/-- `Workspace` from `workspace.h`: grid extents in tiles plus nominal
per-tile pixel size. -/
structure Workspace where
  width : Int
  height : Int
  tileWidth : Int
  tileHeight : Int
deriving DecidableEq, Repr

/-- The default `Workspace()` constructor: all four fields zero. -/
def defaultWorkspace : Workspace := ⟨0, 0, 0, 0⟩

/-- `Workspace::tileSize()` as written in `workspace.h`:
`QSize(mWidth, mHeight)` — it returns the grid extents, not the per-tile
pixel size. -/
def Workspace.tileSize (w : Workspace) : Int × Int := (w.width, w.height)

/-- `HexagonalRenderer::RenderParams` (hexagonalrenderer.cpp:44-64). -/
structure RenderParams where
  tileWidth : Int
  tileHeight : Int
  sideLengthX : Int
  sideLengthY : Int
  staggerX : Bool
  staggerEven : Bool
  sideOffsetX : Int
  sideOffsetY : Int
  columnWidth : Int
  rowHeight : Int
deriving DecidableEq, Repr

/-- The `RenderParams(map, workspace)` constructor (hexagonalrenderer.cpp:44-64). -/
def mkRenderParams (m : GameMap) (ws : Workspace) : RenderParams :=
  let tileWidth := clearLSB ws.tileWidth
  let tileHeight := clearLSB ws.tileHeight
  let staggerX := m.staggerAxis = StaggerAxis.X
  let staggerEven := m.staggerIndex = StaggerIndex.Even
  let sideLengthX : Int :=
    if m.orientation = Orientation.Hexagonal ∧ staggerX then m.hexSideLength else 0
  let sideLengthY : Int :=
    if m.orientation = Orientation.Hexagonal ∧ ¬staggerX then m.hexSideLength else 0
  let sideOffsetX := cppDiv (tileWidth - sideLengthX) 2
  let sideOffsetY := cppDiv (tileHeight - sideLengthY) 2
  { tileWidth := tileWidth
    tileHeight := tileHeight
    sideLengthX := sideLengthX
    sideLengthY := sideLengthY
    staggerX := staggerX
    staggerEven := staggerEven
    sideOffsetX := sideOffsetX
    sideOffsetY := sideOffsetY
    columnWidth := sideOffsetX + sideLengthX
    rowHeight := sideOffsetY + sideLengthY }

/-- Modelled from the spec: `RenderParams::doStaggerX` (declared in
`hexagonalrenderer.h`, which is not part of the corpus):
`staggerEven ? (index % 2 == 0) : (index % 2 != 0)`. -/
def RenderParams.doStaggerX (p : RenderParams) (x : Int) : Bool :=
  if p.staggerEven then x % 2 = 0 else x % 2 ≠ 0

/-- Modelled from the spec: `RenderParams::doStaggerY`, symmetric to
`doStaggerX`. -/
def RenderParams.doStaggerY (p : RenderParams) (y : Int) : Bool :=
  if p.staggerEven then y % 2 = 0 else y % 2 ≠ 0

/-- The integer core of `HexagonalRenderer::tileToScreenCoords`
(hexagonalrenderer.cpp:481-503), after `qFloor` has produced the integer
tile indices. -/
def tileToScreenInt (m : GameMap) (ws : Workspace) (tileX tileY : Int) : Int × Int :=
  let p := mkRenderParams m ws
  if p.staggerX then
    let pixelY0 := tileY * (p.tileHeight + p.sideLengthY)
    let pixelY := if p.doStaggerX tileX then pixelY0 + p.rowHeight else pixelY0
    let pixelX := tileX * p.columnWidth
    (pixelX, pixelY)
  else
    let pixelX0 := tileX * (p.tileWidth + p.sideLengthX)
    let pixelX := if p.doStaggerY tileY then pixelX0 + p.columnWidth else pixelX0
    let pixelY := tileY * p.rowHeight
    (pixelX, pixelY)

/-- `HexagonalRenderer::tileToScreenCoords(qreal x, qreal y, workspace)`
(hexagonalrenderer.cpp:481-503): floors the real inputs (`qFloor`), then
computes the integer pixel position. -/
def tileToScreenCoords (m : GameMap) (ws : Workspace) (x y : ℚ) : Int × Int :=
  tileToScreenInt m ws ⌊x⌋ ⌊y⌋

/-- The first-strict-minimum selection of the candidate-center loop in
`screenToTileCoords` (hexagonalrenderer.cpp:448-458): `nearest` starts at 0
and is replaced only on a strictly smaller distance. -/
def nearestOf4 (d0 d1 d2 d3 : ℚ) : Fin 4 :=
  let n1 : Fin 4 × ℚ := if d1 < d0 then (1, d1) else (0, d0)
  let n2 : Fin 4 × ℚ := if d2 < n1.2 then (2, d2) else n1
  let n3 : Fin 4 × ℚ := if d3 < n2.2 then (3, d3) else n2
  n3.1

/-- Squared euclidean distance `(center - rel).lengthSquared()` over `ℚ`. -/
def distSq (a b : ℚ × ℚ) : ℚ := (a.1 - b.1) ^ 2 + (a.2 - b.2) ^ 2

/-- `HexagonalRenderer::screenToTileCoords(qreal x, qreal y, workspace)`
(hexagonalrenderer.cpp:402-475): nearest-hex-center search.  The C++ real
arithmetic is modelled exactly over `ℚ`; the return value is always an
integer pair (`referencePoint + offsets[nearest]`). -/
def screenToTileCoords (m : GameMap) (ws : Workspace) (x0 y0 : ℚ) : Int × Int :=
  let p := mkRenderParams m ws
  let x : ℚ := if p.staggerX
    then x0 - (if p.staggerEven then (p.tileWidth : ℚ) else (p.sideOffsetX : ℚ))
    else x0
  let y : ℚ := if p.staggerX
    then y0
    else y0 - (if p.staggerEven then (p.tileHeight : ℚ) else (p.sideOffsetY : ℚ))
  let refX0 : Int := ⌊x / ((p.columnWidth : ℚ) * 2)⌋
  let refY0 : Int := ⌊y / ((p.rowHeight : ℚ) * 2)⌋
  let rel : ℚ × ℚ := (x - (refX0 * (p.columnWidth * 2) : Int),
                      y - (refY0 * (p.rowHeight * 2) : Int))
  let refX : Int := if p.staggerX then (if p.staggerEven then refX0 * 2 + 1 else refX0 * 2) else refX0
  let refY : Int := if p.staggerX then refY0 else (if p.staggerEven then refY0 * 2 + 1 else refY0 * 2)
  let centers : Fin 4 → ℚ × ℚ :=
    if p.staggerX then
      let left := cppDiv p.sideLengthX 2
      let centerX := left + p.columnWidth
      let centerY := cppDiv p.tileHeight 2
      fun i => match i with
        | 0 => ((left : ℚ), (centerY : ℚ))
        | 1 => ((centerX : ℚ), ((centerY - p.rowHeight : Int) : ℚ))
        | 2 => ((centerX : ℚ), ((centerY + p.rowHeight : Int) : ℚ))
        | 3 => (((centerX + p.columnWidth : Int) : ℚ), (centerY : ℚ))
    else
      let top := cppDiv p.sideLengthY 2
      let centerX := cppDiv p.tileWidth 2
      let centerY := top + p.rowHeight
      fun i => match i with
        | 0 => ((centerX : ℚ), (top : ℚ))
        | 1 => (((centerX - p.columnWidth : Int) : ℚ), (centerY : ℚ))
        | 2 => (((centerX + p.columnWidth : Int) : ℚ), (centerY : ℚ))
        | 3 => ((centerX : ℚ), ((centerY + p.rowHeight : Int) : ℚ))
  let nearest : Fin 4 :=
    nearestOf4 (distSq (centers 0) rel) (distSq (centers 1) rel)
               (distSq (centers 2) rel) (distSq (centers 3) rel)
  let offsets : Fin 4 → Int × Int :=
    if p.staggerX then
      fun i => match i with
        | 0 => (0, 0) | 1 => (1, -1) | 2 => (1, 0) | 3 => (2, 0)
    else
      fun i => match i with
        | 0 => (0, 0) | 1 => (-1, 1) | 2 => (0, 1) | 3 => (0, 2)
  (refX + (offsets nearest).1, refY + (offsets nearest).2)

/-- `qFloor(a / b)` on integer arguments, computably (floor division;
agrees with `⌊(a : ℚ) / b⌋` for every `b`, including `b = 0`). -/
def floorDivI (a b : Int) : Int := if 0 ≤ b then a / b else (-a) / (-b)

/-- Integer squared distance, the `Int`-valued counterpart of `distSq`. -/
def distSqI (a b : Int × Int) : Int := (a.1 - b.1) ^ 2 + (a.2 - b.2) ^ 2

/-- The `Int`-valued counterpart of `nearestOf4`. -/
def nearestOf4I (d0 d1 d2 d3 : Int) : Fin 4 :=
  let n1 : Fin 4 × Int := if d1 < d0 then (1, d1) else (0, d0)
  let n2 : Fin 4 × Int := if d2 < n1.2 then (2, d2) else n1
  let n3 : Fin 4 × Int := if d3 < n2.2 then (3, d3) else n2
  n3.1

/-- `screenToTileCoords` specialised to integer pixel inputs (the form in
which `drawGrid` and `drawTileLayer` invoke it, on `QPoint`s): the whole
computation stays in `Int`.  `screenToTile_int_eq` proves it agrees with
`screenToTileCoords`. -/
def screenToTileInt (m : GameMap) (ws : Workspace) (x0 y0 : Int) : Int × Int :=
  let p := mkRenderParams m ws
  let x : Int := if p.staggerX
    then x0 - (if p.staggerEven then p.tileWidth else p.sideOffsetX)
    else x0
  let y : Int := if p.staggerX
    then y0
    else y0 - (if p.staggerEven then p.tileHeight else p.sideOffsetY)
  let refX0 : Int := floorDivI x (p.columnWidth * 2)
  let refY0 : Int := floorDivI y (p.rowHeight * 2)
  let rel : Int × Int := (x - refX0 * (p.columnWidth * 2), y - refY0 * (p.rowHeight * 2))
  let refX : Int := if p.staggerX then (if p.staggerEven then refX0 * 2 + 1 else refX0 * 2) else refX0
  let refY : Int := if p.staggerX then refY0 else (if p.staggerEven then refY0 * 2 + 1 else refY0 * 2)
  let centers : Fin 4 → Int × Int :=
    if p.staggerX then
      let left := cppDiv p.sideLengthX 2
      let centerX := left + p.columnWidth
      let centerY := cppDiv p.tileHeight 2
      fun i => match i with
        | 0 => (left, centerY)
        | 1 => (centerX, centerY - p.rowHeight)
        | 2 => (centerX, centerY + p.rowHeight)
        | 3 => (centerX + p.columnWidth, centerY)
    else
      let top := cppDiv p.sideLengthY 2
      let centerX := cppDiv p.tileWidth 2
      let centerY := top + p.rowHeight
      fun i => match i with
        | 0 => (centerX, top)
        | 1 => (centerX - p.columnWidth, centerY)
        | 2 => (centerX + p.columnWidth, centerY)
        | 3 => (centerX, centerY + p.rowHeight)
  let nearest : Fin 4 :=
    nearestOf4I (distSqI (centers 0) rel) (distSqI (centers 1) rel)
                (distSqI (centers 2) rel) (distSqI (centers 3) rel)
  let offsets : Fin 4 → Int × Int :=
    if p.staggerX then
      fun i => match i with
        | 0 => (0, 0) | 1 => (1, -1) | 2 => (1, 0) | 3 => (2, 0)
    else
      fun i => match i with
        | 0 => (0, 0) | 1 => (-1, 1) | 2 => (0, 1) | 3 => (0, 2)
  (refX + (offsets nearest).1, refY + (offsets nearest).2)

/-- `HexagonalRenderer::workSize(workspace)` (hexagonalrenderer.cpp:67-89). -/
def workSize (m : GameMap) (ws : Workspace) : Int × Int :=
  let p := mkRenderParams m ws
  if p.staggerX then
    let w := ws.width * p.columnWidth + p.sideOffsetX
    let h0 := ws.height * (p.tileHeight + p.sideLengthY)
    (w, if ws.width > 1 then h0 + p.rowHeight else h0)
  else
    let w0 := ws.width * (p.tileWidth + p.sideLengthX)
    let h := ws.height * p.rowHeight + p.sideOffsetY
    (if ws.height > 1 then w0 + p.columnWidth else w0, h)

/-- `QRect(x, y, w, h)`: integer rectangle with `right = x+w-1`,
`bottom = y+h-1` (Qt semantics). -/
structure QRect where
  x : Int
  y : Int
  w : Int
  h : Int
deriving DecidableEq, Repr

def QRect.right (r : QRect) : Int := r.x + r.w - 1

def QRect.bottom (r : QRect) : Int := r.y + r.h - 1

/-- `QRect::isNull()`: both width and height are zero. -/
def QRect.isNull (r : QRect) : Bool := r.w = 0 ∧ r.h = 0

/-- `HexagonalRenderer::boundingRect(rect, workspace)`
(hexagonalrenderer.cpp:91-119). -/
def boundingRect (m : GameMap) (ws : Workspace) (rect : QRect) : QRect :=
  let p := mkRenderParams m ws
  let topLeft := tileToScreenInt m ws rect.x rect.y
  if p.staggerX then
    let width := rect.w * p.columnWidth + p.sideOffsetX
    let height0 := rect.h * (p.tileHeight + p.sideLengthY)
    if rect.w > 1 then
      { x := topLeft.1
        y := if p.doStaggerX rect.x then topLeft.2 - p.rowHeight else topLeft.2
        w := width
        h := height0 + p.rowHeight }
    else
      { x := topLeft.1, y := topLeft.2, w := width, h := height0 }
  else
    let width0 := rect.w * (p.tileWidth + p.sideLengthX)
    let height := rect.h * p.rowHeight + p.sideOffsetY
    if rect.h > 1 then
      { x := if p.doStaggerY rect.y then topLeft.1 - p.columnWidth else topLeft.1
        y := topLeft.2
        w := width0 + p.columnWidth
        h := height }
    else
      { x := topLeft.1, y := topLeft.2, w := width0, h := height }

/-- `HexagonalRenderer::topLeft(x, y)` (hexagonalrenderer.cpp:505-518). -/
def topLeft (m : GameMap) (x y : Int) : Int × Int :=
  if m.staggerAxis = StaggerAxis.Y then
    if y % 2 ≠ m.staggerIndex.val then (x, y - 1)
    else (x - 1, y - 1)
  else
    if x % 2 ≠ m.staggerIndex.val then (x - 1, y)
    else (x - 1, y - 1)

/-- `HexagonalRenderer::topRight(x, y)` (hexagonalrenderer.cpp:520-533). -/
def topRight (m : GameMap) (x y : Int) : Int × Int :=
  if m.staggerAxis = StaggerAxis.Y then
    if y % 2 ≠ m.staggerIndex.val then (x + 1, y - 1)
    else (x, y - 1)
  else
    if x % 2 ≠ m.staggerIndex.val then (x + 1, y)
    else (x + 1, y - 1)

/-- `HexagonalRenderer::bottomLeft(x, y)` (hexagonalrenderer.cpp:535-548). -/
def bottomLeft (m : GameMap) (x y : Int) : Int × Int :=
  if m.staggerAxis = StaggerAxis.Y then
    if y % 2 ≠ m.staggerIndex.val then (x, y + 1)
    else (x - 1, y + 1)
  else
    if x % 2 ≠ m.staggerIndex.val then (x - 1, y + 1)
    else (x - 1, y)

/-- `HexagonalRenderer::bottomRight(x, y)` (hexagonalrenderer.cpp:550-563). -/
def bottomRight (m : GameMap) (x y : Int) : Int × Int :=
  if m.staggerAxis = StaggerAxis.Y then
    if y % 2 ≠ m.staggerIndex.val then (x + 1, y + 1)
    else (x, y + 1)
  else
    if x % 2 ≠ m.staggerIndex.val then (x + 1, y + 1)
    else (x + 1, y)

/-- Componentwise addition of integer points (`QPoint + QPoint`). -/
def padd (a b : Int × Int) : Int × Int := (a.1 + b.1, a.2 + b.2)

/-- A drawn line segment (`QLine`): ordered pair of endpoints. -/
abbrev Seg : Type := (Int × Int) × (Int × Int)

/-- The eight octagon corner offsets shared by `drawGrid` (the `oct` array,
hexagonalrenderer.cpp:152-161) and `tileToScreenPolygon`
(hexagonalrenderer.cpp:572-581). -/
def octOffsets (p : RenderParams) : Fin 8 → Int × Int :=
  fun i => match i with
  | 0 => (0, p.tileHeight - p.sideOffsetY)
  | 1 => (0, p.sideOffsetY)
  | 2 => (p.sideOffsetX, 0)
  | 3 => (p.tileWidth - p.sideOffsetX, 0)
  | 4 => (p.tileWidth, p.sideOffsetY)
  | 5 => (p.tileWidth, p.tileHeight - p.sideOffsetY)
  | 6 => (p.tileWidth - p.sideOffsetX, p.tileHeight)
  | 7 => (p.sideOffsetX, p.tileHeight)

/-- The octagon of tile `(x, y)` as it would be computed from an explicitly
supplied workspace: the 8 `oct` offsets added to
`tileToScreenCoords(x, y, workspace)`.  This is the shape
`tileToScreenPolygon` builds, made parametric in the workspace for
comparison. -/
def hexPolygonWith (m : GameMap) (ws : Workspace) (x y : Int) : List (Int × Int) :=
  let p := mkRenderParams m ws
  let tl := tileToScreenInt m ws x y
  (List.finRange 8).map fun i =>
    (tl.1 + (octOffsets p i).1, tl.2 + (octOffsets p i).2)

/-- `HexagonalRenderer::tileToScreenPolygon(x, y)`
(hexagonalrenderer.cpp:565-582): constructs a default `Workspace` (all
fields zero) and computes the octagon from it. -/
def tileToScreenPolygon (m : GameMap) (x y : Int) : List (Int × Int) :=
  let workspace := defaultWorkspace
  let p := mkRenderParams m workspace
  let tl := tileToScreenInt m workspace x y
  (List.finRange 8).map fun i =>
    (tl.1 + (octOffsets p i).1, tl.2 + (octOffsets p i).2)

/-- Inner (row) loop of the stagger-X sweep of `drawGrid`
(hexagonalrenderer.cpp:181-203).  `fuel` is initialised to the exact value
of the loop measure `(H - ty).toNat`, so the recursion replays the C++
loop step for step: whenever the loop guard holds, `ty < H` forces
`fuel ≥ 1`. -/
def gridRowsX (p : RenderParams) (W H right bottom sx : Int) :
    Nat → Int → Int → Int → List Seg
  | 0, _, _, _ => []
  | fuel + 1, ty, py, px =>
    if py ≤ bottom ∧ ty < H then
      let pos := (px, py)
      let o := octOffsets p
      let isStaggered := p.doStaggerX sx
      let lastRow := ty = H - 1
      let lastColumn := sx = W - 1
      let bL := sx = 0 ∨ (lastRow ∧ isStaggered)
      let bR := lastColumn ∨ (lastRow ∧ isStaggered)
      ([(padd pos (o 1), padd pos (o 2)),
        (padd pos (o 2), padd pos (o 3)),
        (padd pos (o 3), padd pos (o 4))]
        ++ (if bR then [(padd pos (o 5), padd pos (o 6))] else [])
        ++ (if lastRow then [(padd pos (o 6), padd pos (o 7))] else [])
        ++ (if bL then [(padd pos (o 7), padd pos (o 0))] else []))
        ++ gridRowsX p W H right bottom sx fuel (ty + 1)
            (py + (p.tileHeight + p.sideLengthY)) px
    else []

/-- Outer (column) loop of the stagger-X sweep of `drawGrid`
(hexagonalrenderer.cpp:174-206); `fuel = (W - sx).toNat` at each entry. -/
def gridColsX (p : RenderParams) (W H right bottom : Int) :
    Nat → Int → Int → Int → Int → List Seg
  | 0, _, _, _, _ => []
  | fuel + 1, sx, ty, px, py =>
    if px ≤ right ∧ sx < W then
      let rowPy := if p.doStaggerX sx then py + p.rowHeight else py
      gridRowsX p W H right bottom sx (H - ty).toNat ty rowPy px
        ++ gridColsX p W H right bottom fuel (sx + 1) ty (px + p.columnWidth) py
    else []

/-- Inner (column) loop of the stagger-Y sweep of `drawGrid`
(hexagonalrenderer.cpp:219-241); `fuel = (W - tx).toNat` at each entry. -/
def gridColsY (p : RenderParams) (W H right bottom ty : Int) :
    Nat → Int → Int → Int → List Seg
  | 0, _, _, _ => []
  | fuel + 1, tx, px, py =>
    if px ≤ right ∧ tx < W then
      let pos := (px, py)
      let o := octOffsets p
      let isStaggered := p.doStaggerY ty
      let lastRow := ty = H - 1
      let lastColumn := tx = W - 1
      let bL := lastRow ∨ (tx = 0 ∧ ¬isStaggered)
      let bR := lastRow ∨ (lastColumn ∧ isStaggered)
      ([(padd pos (o 0), padd pos (o 1)),
        (padd pos (o 1), padd pos (o 2)),
        (padd pos (o 3), padd pos (o 4))]
        ++ (if lastColumn then [(padd pos (o 4), padd pos (o 5))] else [])
        ++ (if bR then [(padd pos (o 5), padd pos (o 6))] else [])
        ++ (if bL then [(padd pos (o 7), padd pos (o 0))] else []))
        ++ gridColsY p W H right bottom ty fuel (tx + 1)
            (px + (p.tileWidth + p.sideLengthX)) py
    else []

/-- Outer (row) loop of the stagger-Y sweep of `drawGrid`
(hexagonalrenderer.cpp:212-244); `fuel = (H - ty).toNat` at each entry. -/
def gridRowsY (p : RenderParams) (W H right bottom stx : Int) :
    Nat → Int → Int → Int → List Seg
  | 0, _, _, _ => []
  | fuel + 1, ty, px, py =>
    if py ≤ bottom ∧ ty < H then
      let rowPx := if p.doStaggerY ty then px + p.columnWidth else px
      gridColsY p W H right bottom ty (W - stx).toNat stx rowPx py
        ++ gridRowsY p W H right bottom stx fuel (ty + 1) px (py + p.rowHeight)
    else []

/-- `HexagonalRenderer::drawGrid(painter, exposed, workspace, gridColor)`
(hexagonalrenderer.cpp:121-246), restricted to integer-aligned exposed
rectangles (`QRectF::toAlignedRect` is the identity on those).  The result
is the list of emitted `QLine` segments, in emission order; painter/pen
state is visual-only and not modelled. -/
def drawGrid (m : GameMap) (ws : Workspace) (exposed : QRect) : List Seg :=
  if exposed.isNull then []
  else
    let p := mkRenderParams m ws
    let st0 := screenToTileInt m ws exposed.x exposed.y
    let sp0 := tileToScreenInt m ws st0.1 st0.2
    let inUpperHalf := exposed.y - sp0.2 < p.sideOffsetY
    let inLeftHalf := exposed.x - sp0.1 < p.sideOffsetX
    let stx1 := if inLeftHalf then st0.1 - 1 else st0.1
    let sty1 := if inUpperHalf then st0.2 - 1 else st0.2
    let stx := max 0 stx1
    let sty := max 0 sty1
    let sp := tileToScreenInt m ws stx sty
    if p.staggerX then
      let spy := if p.doStaggerX stx then sp.2 - p.rowHeight else sp.2
      gridColsX p ws.width ws.height exposed.right exposed.bottom
        (ws.width - stx).toNat stx sty sp.1 spy
    else
      let spx := if p.doStaggerY sty then sp.1 - p.columnWidth else sp.1
      gridRowsY p ws.width ws.height exposed.right exposed.bottom stx
        (ws.height - sty).toNat sty spx sp.2

/-- The axis-aligned bounding box of a polygon's vertex list
(`QPolygonF::boundingRect`): `((minX, minY), (maxX, maxY))`. -/
def polyBounds : List (Int × Int) → (Int × Int) × (Int × Int)
  | [] => ((0, 0), (0, 0))
  | q :: qs =>
    qs.foldl (fun acc v =>
      ((min acc.1.1 v.1, min acc.1.2 v.2), (max acc.2.1 v.1, max acc.2.2 v.2)))
      ((q.1, q.2), (q.1, q.2))

/-- `QRectF::intersects` between a polygon bounding box and an exposed
rectangle: the overlap must have positive extent on both axes. -/
def boundsIntersect (b : (Int × Int) × (Int × Int)) (e : QRect) : Prop :=
  max b.1.1 e.x < min b.2.1 (e.x + e.w) ∧ max b.1.2 e.y < min b.2.2 (e.y + e.h)

instance (b : (Int × Int) × (Int × Int)) (e : QRect) :
    Decidable (boundsIntersect b e) := by unfold boundsIntersect; infer_instance

/-- `HexagonalRenderer::drawTileSelection(painter, region, workspace, color,
exposed)` (hexagonalrenderer.cpp:368-386): for every tile index inside every
rectangle of the region, the hex polygon is built by `tileToScreenPolygon`
and filled when its bounding box intersects `exposed`.  The result is the
list of filled polygons in emission order; brush/pen state is visual-only.
The unused `ws` parameter mirrors the C++ signature. -/
def drawTileSelection (m : GameMap) (region : List QRect) (ws : Workspace)
    (exposed : QRect) : List (List (Int × Int)) :=
  region.flatMap fun r =>
    (List.range r.h.toNat).flatMap fun j =>
      (List.range r.w.toNat).filterMap fun i =>
        let x := r.x + (i : Int)
        let y := r.y + (j : Int)
        let polygon := tileToScreenPolygon m x y
        if boundsIntersect (polyBounds polygon) exposed then some polygon else none

/-- A tile-layer cell: emptiness flag plus, when the referenced tile exists,
that tile's intrinsic image size (`Tile::size`). -/
structure Cell where
  isEmpty : Bool
  tile : Option (Int × Int)
deriving DecidableEq, Repr

/-- Modelled from the spec: the drawable tile-layer interface used by
`drawTileLayer` (`width`, `height`, `position`, its own tile size,
`bounds`, `drawMargins`, `contains(point)`, `cellAt(point)`); `tilelayer.h`
is not part of the corpus. -/
structure TileLayer where
  width : Int
  height : Int
  posX : Int
  posY : Int
  tileWidth : Int
  tileHeight : Int
  bounds : QRect
  marginLeft : Int
  marginTop : Int
  marginRight : Int
  marginBottom : Int
  cellAt : Int → Int → Cell

/-- Modelled from the spec: `TileLayer::contains(point)` — the point lies
within the layer's own `width × height` index range. -/
def TileLayer.contains (l : TileLayer) (x y : Int) : Prop :=
  0 ≤ x ∧ x < l.width ∧ 0 ≤ y ∧ y < l.height

instance (l : TileLayer) (x y : Int) : Decidable (l.contains x y) := by
  unfold TileLayer.contains; infer_instance

/-- One recorded `CellRenderer::render(cell, pos, size, BottomLeft)` call:
the cell, the screen position, and the image size. -/
structure RenderCall where
  cell : Cell
  pos : Int × Int
  size : Int × Int
deriving DecidableEq, Repr

/-- The cell-size default of `drawTileLayer` (hexagonalrenderer.cpp:312,356):
`tile ? tile->size() : tileWorkspace.tileSize()`. -/
def cellSize (cell : Cell) (tileWorkspace : Workspace) : Int × Int :=
  match cell.tile with
  | some sz => sz
  | none => tileWorkspace.tileSize

/-- Inner loop of the stagger-X sweep of `drawTileLayer`
(hexagonalrenderer.cpp:306-318): visits every second column;
`fuel = (layer.width - rtx).toNat` at each entry (`rtx` advances by 2). -/
def dtlRowX (lay : TileLayer) (p : RenderParams) (tileWorkspace : Workspace)
    (right sy rpy : Int) : Nat → Int → Int → List RenderCall
  | 0, _, _ => []
  | fuel + 1, rtx, rpx =>
    if rpx < right ∧ rtx < lay.width then
      (if lay.contains rtx sy then
        let cell := lay.cellAt rtx sy
        if cell.isEmpty then []
        else [⟨cell, (rpx, rpy), cellSize cell tileWorkspace⟩]
      else [])
        ++ dtlRowX lay p tileWorkspace right sy rpy fuel (rtx + 2)
            (rpx + (p.tileWidth + p.sideLengthX))
    else []

/-- Outer zig-zag loop of the stagger-X sweep of `drawTileLayer`
(hexagonalrenderer.cpp:302-332): alternates between stepping the start tile
left+down and right, toggling `staggeredRow`;
`fuel = (2*(layer.height - sty) + (staggeredRow ? 0 : 1)).toNat` at each
entry, which decreases by exactly one per iteration. -/
def dtlColsX (lay : TileLayer) (p : RenderParams) (tileWorkspace : Workspace)
    (right bottom : Int) : Nat → Int → Int → Int → Int → Bool → List RenderCall
  | 0, _, _, _, _, _ => []
  | fuel + 1, stx, sty, spx, spy, staggeredRow =>
    if spy < bottom ∧ sty < lay.height then
      dtlRowX lay p tileWorkspace right sty spy (lay.width - stx).toNat stx spx
        ++ (if staggeredRow then
              dtlColsX lay p tileWorkspace right bottom fuel
                (stx - 1) (sty + 1) (spx - p.columnWidth) (spy + p.rowHeight) false
            else
              dtlColsX lay p tileWorkspace right bottom fuel
                (stx + 1) sty (spx + p.columnWidth) (spy + p.rowHeight) true)
    else []

/-- Inner loop of the stagger-Y sweep of `drawTileLayer`
(hexagonalrenderer.cpp:351-361); note the source queries `cellAt` without a
`contains` check here; `fuel = (layer.width - rtx).toNat` at each entry. -/
def dtlRowY (lay : TileLayer) (p : RenderParams) (tileWorkspace : Workspace)
    (right sy rpy : Int) : Nat → Int → Int → List RenderCall
  | 0, _, _ => []
  | fuel + 1, rtx, rpx =>
    if rpx < right ∧ rtx < lay.width then
      (let cell := lay.cellAt rtx sy
       if cell.isEmpty then []
       else [⟨cell, (rpx, rpy), cellSize cell tileWorkspace⟩])
        ++ dtlRowY lay p tileWorkspace right sy rpy fuel (rtx + 1)
            (rpx + (p.tileWidth + p.sideLengthX))
    else []

/-- Outer loop of the stagger-Y sweep of `drawTileLayer`
(hexagonalrenderer.cpp:344-364); `fuel = (layer.height - sty).toNat`. -/
def dtlRowsY (lay : TileLayer) (p : RenderParams) (tileWorkspace : Workspace)
    (right bottom stx : Int) : Nat → Int → Int → Int → List RenderCall
  | 0, _, _, _ => []
  | fuel + 1, sty, spx, spy =>
    if spy < bottom ∧ sty < lay.height then
      let rpx := if p.doStaggerY (sty + lay.posY) then spx + p.columnWidth else spx
      dtlRowY lay p tileWorkspace right sty spy (lay.width - stx).toNat stx rpx
        ++ dtlRowsY lay p tileWorkspace right bottom stx fuel (sty + 1) spx (spy + p.rowHeight)
    else []

/-- `HexagonalRenderer::drawTileLayer(painter, layer, workspace, exposed)`
(hexagonalrenderer.cpp:248-366), restricted to integer-aligned exposed
rectangles.  The result is the sequence of recorded cell-render calls.
Note the source builds its own `tileWorkspace` from the layer
(hexagonalrenderer.cpp:253) and never reads the `ws` parameter. -/
def drawTileLayer (m : GameMap) (lay : TileLayer) (ws : Workspace)
    (exposed : QRect) : List RenderCall :=
  let tileWorkspace : Workspace := ⟨lay.width, lay.height, lay.tileWidth, lay.tileHeight⟩
  let p := mkRenderParams m tileWorkspace
  let rect0 := if exposed.isNull then boundingRect m tileWorkspace lay.bounds else exposed
  let mBottom := lay.marginBottom + p.tileHeight
  let mRight := lay.marginRight - p.tileWidth
  let rect : QRect := ⟨rect0.x - mRight, rect0.y - mBottom,
                       rect0.w + mRight + lay.marginLeft,
                       rect0.h + mBottom + lay.marginTop⟩
  let st0 := screenToTileInt m tileWorkspace rect.x rect.y
  let st1 : Int × Int := (st0.1 - lay.posX, st0.2 - lay.posY)
  let sp0 := tileToScreenInt m tileWorkspace (st1.1 + lay.posX) (st1.2 + lay.posY)
  let inUpperHalf := rect.y - sp0.2 < p.sideOffsetY
  let inLeftHalf := rect.x - sp0.1 < p.sideOffsetX
  let stx1 := if inLeftHalf then st1.1 - 1 else st1.1
  let sty1 := if inUpperHalf then st1.2 - 1 else st1.2
  if p.staggerX then
    let stx := max (-1) stx1
    let sty := max (-1) sty1
    let sp := tileToScreenInt m tileWorkspace (stx + lay.posX) (sty + lay.posY)
    let spy := sp.2 + p.tileHeight
    let staggeredRow := p.doStaggerX (stx + lay.posX)
    dtlColsX lay p tileWorkspace rect.right rect.bottom
      (2 * (lay.height - sty) + (if staggeredRow then 0 else 1)).toNat
      stx sty sp.1 spy staggeredRow
  else
    let stx := max 0 stx1
    let sty := max 0 sty1
    let sp := tileToScreenInt m tileWorkspace (stx + lay.posX) (sty + lay.posY)
    let spy := sp.2 + p.tileHeight
    let spx := if p.doStaggerY (sty + lay.posY) then sp.1 - p.columnWidth else sp.1
    dtlRowsY lay p tileWorkspace rect.right rect.bottom stx
      (lay.height - sty).toNat sty spx spy

/-- Vertex `i` of the octagon of tile `(x, y)` as drawn with workspace `ws`
(the `oct` corner offsets added to the tile's screen position). -/
def hexVertex (m : GameMap) (ws : Workspace) (x y : Int) (i : Fin 8) : Int × Int :=
  padd (tileToScreenInt m ws x y) (octOffsets (mkRenderParams m ws) i)

/-- 2D cross product of `b - a` and `q - a` over `ℚ`. -/
def crossZ (a b : Int × Int) (q : ℚ × ℚ) : ℚ :=
  ((b.1 - a.1 : Int) : ℚ) * (q.2 - (a.2 : ℚ)) - ((b.2 - a.2 : Int) : ℚ) * (q.1 - (a.1 : ℚ))

/-- The eight edges of tile `(x, y)`'s octagon, in drawing order (each vertex
joined to the next, the last wrapping to the first). -/
def hexEdges (m : GameMap) (ws : Workspace) (x y : Int) :
    List ((Int × Int) × (Int × Int)) :=
  let v := hexVertex m ws x y
  [(v 0, v 1), (v 1, v 2), (v 2, v 3), (v 3, v 4),
   (v 4, v 5), (v 5, v 6), (v 6, v 7), (v 7, v 0)]

/-- `q` lies strictly inside the hexagon (octagon) of tile `(x, y)`: it is on
the strictly positive side of every non-degenerate edge (the octagon is
listed clockwise in screen coordinates, where y grows downward). -/
def hexStrictInterior (m : GameMap) (ws : Workspace) (x y : Int) (q : ℚ × ℚ) : Prop :=
  ∀ e ∈ hexEdges m ws x y, e.1 ≠ e.2 → 0 < crossZ e.1 e.2 q

/-- The spec's description of `boundingRect` (§4.2), written from its words
for comparison with the implementation: top-left from `tileToScreenCoords`,
width/height by the `workSize`-analogous formulas scoped to the tile rect,
and an up/left shift by one `rowHeight`/`columnWidth` when the rect spans
more than one staggered column/row and the starting index is staggered. -/
def boundingRectSpec (m : GameMap) (ws : Workspace) (rect : QRect) : QRect :=
  let p := mkRenderParams m ws
  let tl0 := tileToScreenInt m ws rect.x rect.y
  if p.staggerX then
    let w := rect.w * p.columnWidth + p.sideOffsetX
    let h := rect.h * (p.tileHeight + p.sideLengthY) + (if rect.w > 1 then p.rowHeight else 0)
    let ty := if rect.w > 1 ∧ p.doStaggerX rect.x then tl0.2 - p.rowHeight else tl0.2
    ⟨tl0.1, ty, w, h⟩
  else
    let w := rect.w * (p.tileWidth + p.sideLengthX) + (if rect.h > 1 then p.columnWidth else 0)
    let h := rect.h * p.rowHeight + p.sideOffsetY
    let tx := if rect.h > 1 ∧ p.doStaggerY rect.y then tl0.1 - p.columnWidth else tl0.1
    ⟨tx, tl0.2, w, h⟩

/-- The concrete scenario of spec §8.6: `staggerAxis=X`, `staggerIndex=Even`,
`hexSideLength=4`, tile size 32×32. -/
def scenarioMap : GameMap := ⟨.Hexagonal, .X, .Even, 4⟩

/-- The concrete scenario's 3×3 workspace of 32×32 tiles. -/
def scenarioWorkspace : Workspace := ⟨3, 3, 32, 32⟩

/-- A stagger-Y map used for concrete tile-layer evaluations. -/
def scenarioMapY : GameMap := ⟨.Hexagonal, .Y, .Odd, 4⟩

/-- A 3×3 layer of 32×32 tiles whose only non-empty cell is `(0,0)`, with no
referenced tile image (so the renderer falls back to the default size). -/
def layerOneCell : TileLayer :=
  ⟨3, 3, 0, 0, 32, 32, ⟨0, 0, 3, 3⟩, 0, 0, 0, 0,
   fun x y => if x = 0 ∧ y = 0 then ⟨false, none⟩ else ⟨true, none⟩⟩

/-! ## Theorems -/

/-- `floorDivI` agrees with the rational floor of the division. -/
theorem floor_intCast_div (a b : Int) : ⌊(a : ℚ) / (b : ℚ)⌋ = floorDivI a b := by
  rcases le_or_lt 0 b with hb | hb
  · rcases eq_or_lt_of_le hb with hb0 | hbpos
    · simp [floorDivI, ← hb0]
    · have h2 := Rat.floor_intCast_div_natCast a b.toNat
      have hq : ((b.toNat : ℕ) : ℚ) = (b : ℚ) := by exact_mod_cast Int.toNat_of_nonneg hb
      have hz : ((b.toNat : ℕ) : ℤ) = b := Int.toNat_of_nonneg hb
      rw [hq, hz] at h2
      rw [floorDivI, if_pos hb]
      exact h2
  · have hbn : (0:Int) ≤ -b := by omega
    have h2 := Rat.floor_intCast_div_natCast (-a) (-b).toNat
    have hq : (((-b).toNat : ℕ) : ℚ) = ((-b : Int) : ℚ) := by exact_mod_cast Int.toNat_of_nonneg hbn
    have hz : (((-b).toNat : ℕ) : ℤ) = -b := Int.toNat_of_nonneg hbn
    rw [hq, hz] at h2
    have h3 : (a : ℚ) / (b : ℚ) = ((-a : Int) : ℚ) / ((-b : Int) : ℚ) := by
      push_cast; rw [neg_div_neg_eq]
    rw [floorDivI, if_neg (by omega), h3]
    exact h2

/-- `distSq` on integer-cast points is the cast of `distSqI`. -/
theorem distSq_intCast4 (a1 a2 b1 b2 : Int) :
    distSq ((a1 : ℚ), (a2 : ℚ)) ((b1 : ℚ), (b2 : ℚ)) = ((distSqI (a1, a2) (b1, b2) : Int) : ℚ) := by
  unfold distSq distSqI
  push_cast
  ring

/-- `nearestOf4` on integer-cast distances is `nearestOf4I`. -/
theorem nearestOf4_intCast (d0 d1 d2 d3 : Int) :
    nearestOf4 (d0 : ℚ) (d1 : ℚ) (d2 : ℚ) (d3 : ℚ) = nearestOf4I d0 d1 d2 d3 := by
  unfold nearestOf4 nearestOf4I
  by_cases h1 : d1 < d0
  · by_cases h2 : d2 < d1
    · by_cases h3 : d3 < d2 <;> simp [h1, h2, h3, Int.cast_lt]
    · by_cases h3 : d3 < d1 <;> simp [h1, h2, h3, Int.cast_lt]
  · by_cases h2 : d2 < d0
    · by_cases h3 : d3 < d2 <;> simp [h1, h2, h3, Int.cast_lt]
    · by_cases h3 : d3 < d0 <;> simp [h1, h2, h3, Int.cast_lt]

/-- On integer pixel inputs — the only form in which the drawing routines
invoke it — `screenToTileCoords` coincides with the all-integer
`screenToTileInt`. -/
theorem screenToTile_int_eq (m : GameMap) (ws : Workspace) (x0 y0 : Int) :
    screenToTileCoords m ws (x0 : ℚ) (y0 : ℚ) = screenToTileInt m ws x0 y0 := by
  unfold screenToTileCoords screenToTileInt
  have hsub : ∀ (a b : Int), (a : ℚ) - (b : ℚ) = ((a - b : Int) : ℚ) := by
    intro a b; push_cast; ring
  cases hsx : (mkRenderParams m ws).staggerX <;> cases hse : (mkRenderParams m ws).staggerEven
  all_goals
    simp only [hsx, hse, Bool.false_eq_true, eq_self_iff_true, if_true, if_false,
      ite_true, ite_false, hsub]
  all_goals
    rw [show ((mkRenderParams m ws).columnWidth : ℚ) * 2
          = (((mkRenderParams m ws).columnWidth * 2 : Int) : ℚ) by push_cast; ring,
        show ((mkRenderParams m ws).rowHeight : ℚ) * 2
          = (((mkRenderParams m ws).rowHeight * 2 : Int) : ℚ) by push_cast; ring,
        floor_intCast_div, floor_intCast_div]
  all_goals
    simp only [hsub, ← Int.cast_mul, distSq_intCast4, nearestOf4_intCast]

/-- C6: for every map (both stagger axes, both stagger parities) and every
integer tile index `(x, y)`, `topLeft(bottomRight(x,y)) = (x,y)` and
`topRight(bottomLeft(x,y)) = (x,y)`. -/
theorem neighbor_roundtrip (m : GameMap) (x y : Int) :
    topLeft m (bottomRight m x y).1 (bottomRight m x y).2 = (x, y) ∧
    topRight m (bottomLeft m x y).1 (bottomLeft m x y).2 = (x, y) := by
  obtain ⟨o, ax, idx, s⟩ := m
  cases ax <;> cases idx <;>
    simp only [topLeft, topRight, bottomLeft, bottomRight, StaggerIndex.val] <;>
    constructor <;>
    simp [Prod.ext_iff] <;>
    split_ifs <;>
    simp_all [Prod.ext_iff] <;>
    omega

/-- C10: `boundingRect` computes exactly the pixel rectangle the spec
describes: top-left from `tileToScreenCoords(tileRect.topLeft())`, the
`workSize`-analogous extent formulas scoped to the tile rect, and the
one-step up/left shift when the rect spans more than one staggered
column/row and the starting index is staggered. -/
theorem boundingRect_matches_spec (m : GameMap) (ws : Workspace) (rect : QRect) :
    boundingRect m ws rect = boundingRectSpec m ws rect := by
  unfold boundingRect boundingRectSpec
  cases hsx : (mkRenderParams m ws).staggerX <;>
    simp only [hsx, Bool.false_eq_true, if_true, if_false, ite_true, ite_false,
      eq_self_iff_true]
  · by_cases hh : 1 < rect.h
    · by_cases hst : (mkRenderParams m ws).doStaggerY rect.y = true <;>
        simp [hh, hst, QRect.mk.injEq]
    · simp [hh, QRect.mk.injEq]
  · by_cases hw : 1 < rect.w
    · by_cases hst : (mkRenderParams m ws).doStaggerX rect.x = true <;>
        simp [hw, hst, QRect.mk.injEq]
    · simp [hw, QRect.mk.injEq]

/-- C2: the outputs of `drawTileLayer` and `drawTileSelection` are identical
for any two values of the workspace parameter, all other inputs equal —
`drawTileLayer` rebuilds its workspace from the layer and
`drawTileSelection` never reads it. -/
theorem draw_workspace_independent (m : GameMap) (lay : TileLayer) (region : List QRect)
    (exposed : QRect) (ws1 ws2 : Workspace) :
    drawTileLayer m lay ws1 exposed = drawTileLayer m lay ws2 exposed ∧
    drawTileSelection m region ws1 exposed = drawTileSelection m region ws2 exposed :=
  ⟨rfl, rfl⟩

/-- C5: `tileToScreenPolygon` computes its octagon from a default-constructed
(all-zero) workspace for every tile index, and its result disagrees with the
same octagon computed from a real, non-default workspace (witnessed at the
3×3/32×32 scenario workspace, tile `(0,0)`). -/
theorem tileToScreenPolygon_default_workspace :
    (∀ (m : GameMap) (x y : Int),
      tileToScreenPolygon m x y = hexPolygonWith m defaultWorkspace x y) ∧
    hexPolygonWith scenarioMap scenarioWorkspace 0 0 ≠ tileToScreenPolygon scenarioMap 0 0 := by
  constructor
  · intro m x y; rfl
  · decide

/-- C9 counterexample: for the hexagonal map with `hexSideLength = 0`
(stagger-X), both `sideLengthX` and `sideLengthY` are zero, so "exactly one
of them is nonzero" fails. -/
theorem renderParams_exactly_one_counterexample :
    ¬ ((((mkRenderParams ⟨.Hexagonal, .X, .Odd, 0⟩ scenarioWorkspace).sideLengthX ≠ 0 ∧
         (mkRenderParams ⟨.Hexagonal, .X, .Odd, 0⟩ scenarioWorkspace).sideLengthY = 0) ∨
        ((mkRenderParams ⟨.Hexagonal, .X, .Odd, 0⟩ scenarioWorkspace).sideLengthX = 0 ∧
         (mkRenderParams ⟨.Hexagonal, .X, .Odd, 0⟩ scenarioWorkspace).sideLengthY ≠ 0))) := by
  decide

/-- C9 amended: for every hexagonal map, `sideLengthX = hexSideLength` and
`sideLengthY = 0` under stagger-X (symmetrically under stagger-Y), hence
exactly one of the two is nonzero whenever `hexSideLength ≠ 0`. -/
theorem renderParams_side_lengths_amended (m : GameMap) (ws : Workspace)
    (h : m.orientation = Orientation.Hexagonal) :
    (m.staggerAxis = StaggerAxis.X →
      (mkRenderParams m ws).sideLengthX = m.hexSideLength ∧
      (mkRenderParams m ws).sideLengthY = 0) ∧
    (m.staggerAxis = StaggerAxis.Y →
      (mkRenderParams m ws).sideLengthY = m.hexSideLength ∧
      (mkRenderParams m ws).sideLengthX = 0) ∧
    (m.hexSideLength ≠ 0 →
      ((mkRenderParams m ws).sideLengthX ≠ 0 ∧ (mkRenderParams m ws).sideLengthY = 0) ∨
      ((mkRenderParams m ws).sideLengthX = 0 ∧ (mkRenderParams m ws).sideLengthY ≠ 0)) := by
  obtain ⟨o, ax, idx, s⟩ := m
  cases ax <;> simp_all [mkRenderParams]

/-- C9 witness: the amended statement evaluated at the scenario map. -/
theorem renderParams_side_lengths_amended_witness :
    scenarioMap.orientation = Orientation.Hexagonal ∧
    ((scenarioMap.staggerAxis = StaggerAxis.X →
      (mkRenderParams scenarioMap scenarioWorkspace).sideLengthX = scenarioMap.hexSideLength ∧
      (mkRenderParams scenarioMap scenarioWorkspace).sideLengthY = 0) ∧
    (scenarioMap.staggerAxis = StaggerAxis.Y →
      (mkRenderParams scenarioMap scenarioWorkspace).sideLengthY = scenarioMap.hexSideLength ∧
      (mkRenderParams scenarioMap scenarioWorkspace).sideLengthX = 0) ∧
    (scenarioMap.hexSideLength ≠ 0 →
      ((mkRenderParams scenarioMap scenarioWorkspace).sideLengthX ≠ 0 ∧
       (mkRenderParams scenarioMap scenarioWorkspace).sideLengthY = 0) ∨
      ((mkRenderParams scenarioMap scenarioWorkspace).sideLengthX = 0 ∧
       (mkRenderParams scenarioMap scenarioWorkspace).sideLengthY ≠ 0))) :=
  ⟨by decide, renderParams_side_lengths_amended scenarioMap scenarioWorkspace (by decide)⟩

/-- C8 counterexample: an empty (zero-width) but non-null exposed rectangle
is not caught by the `isNull` early-return, and `drawGrid` still emits line
segments for it. -/
theorem drawGrid_empty_rect_counterexample :
    drawGrid scenarioMap scenarioWorkspace ⟨20, 20, 0, 20⟩ ≠ [] := by decide

/-- C8 amended: `drawGrid` emits nothing when the exposed rectangle is null
(width and height both zero) — the check the code actually performs — and
`drawTileSelection` emits nothing for an empty region. -/
theorem degenerate_inputs_amended :
    (∀ (m : GameMap) (ws : Workspace) (x y : Int), drawGrid m ws ⟨x, y, 0, 0⟩ = []) ∧
    (∀ (m : GameMap) (ws : Workspace) (exposed : QRect),
      drawTileSelection m [] ws exposed = []) := by
  constructor
  · intro m ws x y; simp [drawGrid, QRect.isNull]
  · intro m ws exposed; rfl

/-- C4 counterexample: in the §8.6 scenario, `tileToScreenCoords(0,0)` is not
`(0,0)` — column 0 is staggered under `staggerEven`, so the pixel y is
`rowHeight = 16`. -/
theorem scenario_t2s_counterexample :
    tileToScreenCoords scenarioMap scenarioWorkspace 0 0 ≠ (0, 0) := by
  unfold tileToScreenCoords
  simp only [Int.floor_zero]
  decide

/-- C4 amended: the §8.6 scenario values, with
`tileToScreenCoords(0,0) = (0,16)` (the `doStaggerX` predicate staggers the
even columns here); all other claimed values hold as stated, including
`tileToScreenCoords(1,0) = (18,0)`. -/
theorem scenario_amended :
    (mkRenderParams scenarioMap scenarioWorkspace).sideOffsetX = 14 ∧
    (mkRenderParams scenarioMap scenarioWorkspace).columnWidth = 18 ∧
    (mkRenderParams scenarioMap scenarioWorkspace).sideLengthY = 0 ∧
    (mkRenderParams scenarioMap scenarioWorkspace).sideOffsetY = 16 ∧
    (mkRenderParams scenarioMap scenarioWorkspace).rowHeight = 16 ∧
    workSize scenarioMap scenarioWorkspace = (68, 112) ∧
    tileToScreenCoords scenarioMap scenarioWorkspace 0 0 = (0, 16) ∧
    tileToScreenCoords scenarioMap scenarioWorkspace 1 0 = (18, 0) := by
  refine ⟨by decide, by decide, by decide, by decide, by decide, by decide, ?_, ?_⟩ <;>
    unfold tileToScreenCoords <;> simp only [Int.floor_zero, Int.floor_one] <;> decide

/-- C3: on a 3×3 layer of 32×32 tiles whose only non-empty cell has no
referenced tile image, `drawTileLayer` renders that cell with size `(3,3)` —
`Workspace::tileSize()` returns the grid extents `(width, height)`, not the
per-tile pixel size `(tileWidth, tileHeight) = (32,32)` that both the spec
and the accessor's name promise. -/
theorem drawTileLayer_default_size_bug :
    drawTileLayer scenarioMapY layerOneCell ⟨9, 9, 9, 9⟩ ⟨0, 0, 200, 200⟩
      = [⟨⟨false, none⟩, (0, 32), (3, 3)⟩] ∧
    ((3, 3) : Int × Int) ≠ (32, 32) ∧
    (⟨3, 3, 32, 32⟩ : Workspace).tileSize = (3, 3) :=
  ⟨by decide, by decide, by decide⟩

/-- Characterisation of `floorDivI` by its floor-division bounds. -/
theorem floorDivI_eq_of (a b q : Int) (hb : 0 < b) (h1 : b * q ≤ a) (h2 : a < b * (q + 1)) :
    floorDivI a b = q := by
  unfold floorDivI
  rw [if_pos hb.le]
  have hsplit : a = (a - b * q) + b * q := by ring
  have h0 : 0 ≤ a - b * q := by linarith
  have hlt : a - b * q < b := by nlinarith
  rw [hsplit, Int.add_mul_ediv_left _ _ (by omega : b ≠ 0),
    Int.ediv_eq_zero_of_lt h0 hlt, zero_add]

/-- Squared distances are nonnegative. -/
theorem distSqI_nonneg (a b : Int × Int) : 0 ≤ distSqI a b := by
  unfold distSqI; positivity

/-- When the first candidate is at distance 0, the first-strict-minimum rule keeps it. -/
theorem nearestOf4I_eq_zero (d1 d2 d3 : Int) (h1 : 0 ≤ d1) (h2 : 0 ≤ d2) (h3 : 0 ≤ d3) :
    nearestOf4I 0 d1 d2 d3 = 0 := by
  unfold nearestOf4I
  simp [not_lt.mpr h1, not_lt.mpr h2, not_lt.mpr h3]

/-- When only the second candidate is at distance 0, the rule selects it. -/
theorem nearestOf4I_eq_one (d0 d2 d3 : Int) (h0 : 0 < d0) (h2 : 0 ≤ d2) (h3 : 0 ≤ d3) :
    nearestOf4I d0 0 d2 d3 = 1 := by
  unfold nearestOf4I
  simp [h0, not_lt.mpr h2, not_lt.mpr h3]

/-- `RenderParams` fields for a hexagonal stagger-X, stagger-odd map. -/
theorem mkRP_XOdd (ws : Workspace) (s : Int) :
    mkRenderParams ⟨.Hexagonal, .X, .Odd, s⟩ ws =
      ⟨clearLSB ws.tileWidth, clearLSB ws.tileHeight, s, 0, true, false,
       cppDiv (clearLSB ws.tileWidth - s) 2, cppDiv (clearLSB ws.tileHeight) 2,
       cppDiv (clearLSB ws.tileWidth - s) 2 + s, cppDiv (clearLSB ws.tileHeight) 2⟩ := by
  simp [mkRenderParams]

theorem cppDiv_two_mul (k : Int) : cppDiv (2 * k) 2 = k := by
  unfold cppDiv
  exact Int.mul_tdiv_cancel_left k (by omega)



/-- `RenderParams` fields for a hexagonal stagger-X, stagger-even map. -/
theorem mkRP_XEven (ws : Workspace) (s : Int) :
    mkRenderParams ⟨.Hexagonal, .X, .Even, s⟩ ws =
      ⟨clearLSB ws.tileWidth, clearLSB ws.tileHeight, s, 0, true, true,
       cppDiv (clearLSB ws.tileWidth - s) 2, cppDiv (clearLSB ws.tileHeight) 2,
       cppDiv (clearLSB ws.tileWidth - s) 2 + s, cppDiv (clearLSB ws.tileHeight) 2⟩ := by
  simp [mkRenderParams]

/-- `RenderParams` fields for a hexagonal stagger-Y, stagger-odd map. -/
theorem mkRP_YOdd (ws : Workspace) (s : Int) :
    mkRenderParams ⟨.Hexagonal, .Y, .Odd, s⟩ ws =
      ⟨clearLSB ws.tileWidth, clearLSB ws.tileHeight, 0, s, false, false,
       cppDiv (clearLSB ws.tileWidth) 2, cppDiv (clearLSB ws.tileHeight - s) 2,
       cppDiv (clearLSB ws.tileWidth) 2, cppDiv (clearLSB ws.tileHeight - s) 2 + s⟩ := by
  simp [mkRenderParams]

/-- `RenderParams` fields for a hexagonal stagger-Y, stagger-even map. -/
theorem mkRP_YEven (ws : Workspace) (s : Int) :
    mkRenderParams ⟨.Hexagonal, .Y, .Even, s⟩ ws =
      ⟨clearLSB ws.tileWidth, clearLSB ws.tileHeight, 0, s, false, true,
       cppDiv (clearLSB ws.tileWidth) 2, cppDiv (clearLSB ws.tileHeight - s) 2,
       cppDiv (clearLSB ws.tileWidth) 2, cppDiv (clearLSB ws.tileHeight - s) 2 + s⟩ := by
  simp [mkRenderParams]



set_option maxHeartbeats 2000000 in
/-- C1 amended: for every hexagonal map whose effective (even-rounded) tile
dimensions are positive and whose hex side length is even, nonnegative and at
most the staggered dimension — the exact-half-division regime the spec's
`& ~1` rounding is built for — `screenToTileCoords` maps the center of tile
`(x,y)`'s hexagon (its screen position plus half a tile in each direction)
back to exactly `(x, y)`, for every tile inside the grid, over both stagger
axes and both parities. -/
theorem screenToTile_center_roundtrip (m : GameMap) (ws : Workspace)
    (hhex : m.orientation = Orientation.Hexagonal)
    (hT : 0 < (mkRenderParams m ws).tileWidth)
    (hH : 0 < (mkRenderParams m ws).tileHeight)
    (hs0 : 0 ≤ m.hexSideLength) (hs2 : m.hexSideLength % 2 = 0)
    (hsle : m.hexSideLength ≤ (if m.staggerAxis = StaggerAxis.X
        then (mkRenderParams m ws).tileWidth else (mkRenderParams m ws).tileHeight))
    (x y : Int) (hx0 : 0 ≤ x) (hxW : x < ws.width) (hy0 : 0 ≤ y) (hyH : y < ws.height) :
    screenToTileCoords m ws
      (((tileToScreenInt m ws x y).1 + (mkRenderParams m ws).tileWidth / 2 : Int) : ℚ)
      (((tileToScreenInt m ws x y).2 + (mkRenderParams m ws).tileHeight / 2 : Int) : ℚ)
      = (x, y) := by
  rw [screenToTile_int_eq]
  obtain ⟨o, ax, idx, s⟩ := m
  have ho : o = Orientation.Hexagonal := hhex
  subst ho
  have hT' : 0 < clearLSB ws.tileWidth := hT
  have hH' : 0 < clearLSB ws.tileHeight := hH
  have hs0' : 0 ≤ s := hs0
  have hs2' : s % 2 = 0 := hs2
  obtain ⟨a, hTa⟩ : ∃ a, clearLSB ws.tileWidth = 2 * a := ⟨ws.tileWidth / 2, by unfold clearLSB; omega⟩
  obtain ⟨b, hHb⟩ : ∃ b, clearLSB ws.tileHeight = 2 * b := ⟨ws.tileHeight / 2, by unfold clearLSB; omega⟩
  obtain ⟨c, hsc⟩ : ∃ c, s = 2 * c := ⟨s / 2, by omega⟩
  have ha : 1 ≤ a := by omega
  have hb : 1 ≤ b := by omega
  have hc0 : 0 ≤ c := by omega
  subst hsc
  cases ax <;> cases idx
  -- X, Odd
  case X.Odd =>
    have hca : c ≤ a := by
      have h := hsle
      simp [mkRP_XOdd, hTa] at h
      omega
    clear hsle hT hH hs0 hs2 hhex
    have e1 : cppDiv (2 * a - 2 * c) 2 = a - c := by
      rw [show 2 * a - 2 * c = 2 * (a - c) by ring, cppDiv_two_mul]
    have e2 : cppDiv (2 * b) 2 = b := cppDiv_two_mul b
    have e3 : cppDiv (2 * c) 2 = c := cppDiv_two_mul c
    have e4 : 2 * a / 2 = a := by omega
    have e5 : 2 * b / 2 = b := by omega
    obtain ⟨q, hq | hq⟩ : ∃ q, x = 2 * q ∨ x = 2 * q + 1 := ⟨x / 2, by omega⟩
    · subst hq
      have epar : (2 * q) % 2 = 0 := by omega
      simp only [screenToTileInt, tileToScreenInt, mkRP_XOdd, hTa, hHb, e1, e2, e3, e4, e5,
        RenderParams.doStaggerX, epar, if_true, if_false, ite_true, ite_false,
        Bool.false_eq_true, eq_self_iff_true, decide_eq_true_eq, ne_eq, not_true, not_false_iff,
        mul_zero, add_zero, zero_add]
      have f1 : floorDivI (2 * q * (a - c + 2 * c) + a - (a - c)) ((a - c + 2 * c) * 2) = q :=
        floorDivI_eq_of _ _ _ (by nlinarith) (by nlinarith) (by nlinarith)
      have f2 : floorDivI (y * (2 * b) + b) (b * 2) = y :=
        floorDivI_eq_of _ _ _ (by nlinarith) (by nlinarith) (by nlinarith)
      rw [f1, f2]
      ring_nf
      rw [show distSqI (c, b) (c, b) = 0 from by simp [distSqI],
          nearestOf4I_eq_zero _ _ _ (distSqI_nonneg _ _) (distSqI_nonneg _ _) (distSqI_nonneg _ _)]
      simp
    · subst hq
      have epar : (2 * q + 1) % 2 = 1 := by omega
      have hone : ¬(1 : Int) = 0 := by decide
      simp only [screenToTileInt, tileToScreenInt, mkRP_XOdd, hTa, hHb, e1, e2, e3, e4, e5,
        RenderParams.doStaggerX, epar, hone, if_true, if_false, ite_true, ite_false,
        Bool.false_eq_true, eq_self_iff_true, decide_eq_true_eq, ne_eq, not_true, not_false_iff,
        not_false_eq_true, mul_zero, add_zero, zero_add]
      have f1 : floorDivI ((2 * q + 1) * (a - c + 2 * c) + a - (a - c)) ((a - c + 2 * c) * 2) = q :=
        floorDivI_eq_of _ _ _ (by nlinarith) (by nlinarith) (by nlinarith)
      have f2 : floorDivI (y * (2 * b) + b + b) (b * 2) = y + 1 :=
        floorDivI_eq_of _ _ _ (by nlinarith) (by nlinarith) (by nlinarith)
      rw [f1, f2]
      ring_nf
      rw [show distSqI (a + c * 2, 0) (a + c * 2, 0) = 0 from by simp [distSqI],
          nearestOf4I_eq_one _ _ _ (by simp [distSqI]; nlinarith)
            (distSqI_nonneg _ _) (distSqI_nonneg _ _)]
      simp
      ring
  -- X, Even
  case X.Even =>
    have hca : c ≤ a := by
      have h := hsle
      simp [mkRP_XEven, hTa] at h
      omega
    clear hsle hT hH hs0 hs2 hhex
    have e1 : cppDiv (2 * a - 2 * c) 2 = a - c := by
      rw [show 2 * a - 2 * c = 2 * (a - c) by ring, cppDiv_two_mul]
    have e2 : cppDiv (2 * b) 2 = b := cppDiv_two_mul b
    have e3 : cppDiv (2 * c) 2 = c := cppDiv_two_mul c
    have e4 : 2 * a / 2 = a := by omega
    have e5 : 2 * b / 2 = b := by omega
    obtain ⟨q, hq | hq⟩ : ∃ q, x = 2 * q ∨ x = 2 * q + 1 := ⟨x / 2, by omega⟩
    · subst hq
      have epar : (2 * q) % 2 = 0 := by omega
      simp only [screenToTileInt, tileToScreenInt, mkRP_XEven, hTa, hHb, e1, e2, e3, e4, e5,
        RenderParams.doStaggerX, epar, if_true, if_false, ite_true, ite_false,
        Bool.false_eq_true, eq_self_iff_true, decide_eq_true_eq, ne_eq, not_true, not_false_iff,
        mul_zero, add_zero, zero_add]
      have f1 : floorDivI (2 * q * (a - c + 2 * c) + a - 2 * a) ((a - c + 2 * c) * 2) = q - 1 :=
        floorDivI_eq_of _ _ _ (by nlinarith) (by nlinarith) (by nlinarith)
      have f2 : floorDivI (y * (2 * b) + b + b) (b * 2) = y + 1 :=
        floorDivI_eq_of _ _ _ (by nlinarith) (by nlinarith) (by nlinarith)
      rw [f1, f2]
      ring_nf
      rw [show distSqI (a + c * 2, 0) (a + c * 2, 0) = 0 from by simp [distSqI],
          nearestOf4I_eq_one _ _ _ (by simp [distSqI]; nlinarith)
            (distSqI_nonneg _ _) (distSqI_nonneg _ _)]
      simp
      try ring
    · subst hq
      have epar : (2 * q + 1) % 2 = 1 := by omega
      have hone : ¬(1 : Int) = 0 := by decide
      simp only [screenToTileInt, tileToScreenInt, mkRP_XEven, hTa, hHb, e1, e2, e3, e4, e5,
        RenderParams.doStaggerX, epar, hone, if_true, if_false, ite_true, ite_false,
        Bool.false_eq_true, eq_self_iff_true, decide_eq_true_eq, ne_eq, not_true, not_false_iff,
        not_false_eq_true, mul_zero, add_zero, zero_add]
      have f1 : floorDivI ((2 * q + 1) * (a - c + 2 * c) + a - 2 * a) ((a - c + 2 * c) * 2) = q :=
        floorDivI_eq_of _ _ _ (by nlinarith) (by nlinarith) (by nlinarith)
      have f2 : floorDivI (y * (2 * b) + b) (b * 2) = y :=
        floorDivI_eq_of _ _ _ (by nlinarith) (by nlinarith) (by nlinarith)
      rw [f1, f2]
      ring_nf
      rw [show distSqI (c, b) (c, b) = 0 from by simp [distSqI],
          nearestOf4I_eq_zero _ _ _ (distSqI_nonneg _ _) (distSqI_nonneg _ _) (distSqI_nonneg _ _)]
      simp
      try ring
  case Y.Odd =>
    have hcb : c ≤ b := by
      have h := hsle
      simp [mkRP_YOdd, hHb] at h
      omega
    clear hsle hT hH hs0 hs2 hhex
    have e1 : cppDiv (2 * b - 2 * c) 2 = b - c := by
      rw [show 2 * b - 2 * c = 2 * (b - c) by ring, cppDiv_two_mul]
    have e2 : cppDiv (2 * a) 2 = a := cppDiv_two_mul a
    have e3 : cppDiv (2 * c) 2 = c := cppDiv_two_mul c
    have e4 : 2 * a / 2 = a := by omega
    have e5 : 2 * b / 2 = b := by omega
    obtain ⟨r, hr | hr⟩ : ∃ r, y = 2 * r ∨ y = 2 * r + 1 := ⟨y / 2, by omega⟩
    · subst hr
      have epar : (2 * r) % 2 = 0 := by omega
      simp only [screenToTileInt, tileToScreenInt, mkRP_YOdd, hTa, hHb, e1, e2, e3, e4, e5,
        RenderParams.doStaggerY, epar, if_true, if_false, ite_true, ite_false,
        Bool.false_eq_true, eq_self_iff_true, decide_eq_true_eq, ne_eq, not_true, not_false_iff,
        mul_zero, add_zero, zero_add]
      have f1 : floorDivI (x * (2 * a) + a) (a * 2) = x :=
        floorDivI_eq_of _ _ _ (by nlinarith) (by nlinarith) (by nlinarith)
      have f2 : floorDivI (2 * r * (b - c + 2 * c) + b - (b - c)) ((b - c + 2 * c) * 2) = r :=
        floorDivI_eq_of _ _ _ (by nlinarith) (by nlinarith) (by nlinarith)
      rw [f1, f2]
      ring_nf
      rw [show distSqI (a, c) (a, c) = 0 from by simp [distSqI],
          nearestOf4I_eq_zero _ _ _ (distSqI_nonneg _ _) (distSqI_nonneg _ _) (distSqI_nonneg _ _)]
      simp
      try ring
    · subst hr
      have epar : (2 * r + 1) % 2 = 1 := by omega
      have hone : ¬(1 : Int) = 0 := by decide
      simp only [screenToTileInt, tileToScreenInt, mkRP_YOdd, hTa, hHb, e1, e2, e3, e4, e5,
        RenderParams.doStaggerY, epar, hone, if_true, if_false, ite_true, ite_false,
        Bool.false_eq_true, eq_self_iff_true, decide_eq_true_eq, ne_eq, not_true, not_false_iff,
        not_false_eq_true, mul_zero, add_zero, zero_add]
      have f1 : floorDivI (x * (2 * a) + a + a) (a * 2) = x + 1 :=
        floorDivI_eq_of _ _ _ (by nlinarith) (by nlinarith) (by nlinarith)
      have f2 : floorDivI ((2 * r + 1) * (b - c + 2 * c) + b - (b - c)) ((b - c + 2 * c) * 2) = r :=
        floorDivI_eq_of _ _ _ (by nlinarith) (by nlinarith) (by nlinarith)
      rw [f1, f2]
      ring_nf
      rw [show distSqI (0, b + c * 2) (0, b + c * 2) = 0 from by simp [distSqI],
          nearestOf4I_eq_one _ _ _ (by simp [distSqI]; nlinarith)
            (distSqI_nonneg _ _) (distSqI_nonneg _ _)]
      simp
      try ring
  case Y.Even =>
    have hcb : c ≤ b := by
      have h := hsle
      simp [mkRP_YEven, hHb] at h
      omega
    clear hsle hT hH hs0 hs2 hhex
    have e1 : cppDiv (2 * b - 2 * c) 2 = b - c := by
      rw [show 2 * b - 2 * c = 2 * (b - c) by ring, cppDiv_two_mul]
    have e2 : cppDiv (2 * a) 2 = a := cppDiv_two_mul a
    have e3 : cppDiv (2 * c) 2 = c := cppDiv_two_mul c
    have e4 : 2 * a / 2 = a := by omega
    have e5 : 2 * b / 2 = b := by omega
    obtain ⟨r, hr | hr⟩ : ∃ r, y = 2 * r ∨ y = 2 * r + 1 := ⟨y / 2, by omega⟩
    · subst hr
      have epar : (2 * r) % 2 = 0 := by omega
      simp only [screenToTileInt, tileToScreenInt, mkRP_YEven, hTa, hHb, e1, e2, e3, e4, e5,
        RenderParams.doStaggerY, epar, if_true, if_false, ite_true, ite_false,
        Bool.false_eq_true, eq_self_iff_true, decide_eq_true_eq, ne_eq, not_true, not_false_iff,
        mul_zero, add_zero, zero_add]
      have f1 : floorDivI (x * (2 * a) + a + a) (a * 2) = x + 1 :=
        floorDivI_eq_of _ _ _ (by nlinarith) (by nlinarith) (by nlinarith)
      have f2 : floorDivI (2 * r * (b - c + 2 * c) + b - 2 * b) ((b - c + 2 * c) * 2) = r - 1 :=
        floorDivI_eq_of _ _ _ (by nlinarith) (by nlinarith) (by nlinarith)
      rw [f1, f2]
      ring_nf
      rw [show distSqI (0, b + c * 2) (0, b + c * 2) = 0 from by simp [distSqI],
          nearestOf4I_eq_one _ _ _ (by simp [distSqI]; nlinarith)
            (distSqI_nonneg _ _) (distSqI_nonneg _ _)]
      simp
      try ring
    · subst hr
      have epar : (2 * r + 1) % 2 = 1 := by omega
      have hone : ¬(1 : Int) = 0 := by decide
      simp only [screenToTileInt, tileToScreenInt, mkRP_YEven, hTa, hHb, e1, e2, e3, e4, e5,
        RenderParams.doStaggerY, epar, hone, if_true, if_false, ite_true, ite_false,
        Bool.false_eq_true, eq_self_iff_true, decide_eq_true_eq, ne_eq, not_true, not_false_iff,
        not_false_eq_true, mul_zero, add_zero, zero_add]
      have f1 : floorDivI (x * (2 * a) + a) (a * 2) = x :=
        floorDivI_eq_of _ _ _ (by nlinarith) (by nlinarith) (by nlinarith)
      have f2 : floorDivI ((2 * r + 1) * (b - c + 2 * c) + b - 2 * b) ((b - c + 2 * c) * 2) = r :=
        floorDivI_eq_of _ _ _ (by nlinarith) (by nlinarith) (by nlinarith)
      rw [f1, f2]
      ring_nf
      rw [show distSqI (a, c) (a, c) = 0 from by simp [distSqI],
          nearestOf4I_eq_zero _ _ _ (distSqI_nonneg _ _) (distSqI_nonneg _ _) (distSqI_nonneg _ _)]
      simp
      try ring



/-- C1 counterexample: in the spec's own §8.6 scenario, the pixel point
`(8, 183/8)` lies strictly inside the hexagon of tile `(0,0)` yet
`screenToTileCoords` returns `(-1, 0)` — the conversion is not an exact
left-inverse on all hex-interior points (the octagon edges are not the
perpendicular bisectors of the candidate centers, leaving slivers that are
assigned to a neighboring tile). -/
theorem screenToTile_not_left_inverse :
    hexStrictInterior scenarioMap scenarioWorkspace 0 0 (8, 183/8) ∧
    screenToTileCoords scenarioMap scenarioWorkspace 8 (183/8) = (-1, 0) ∧
    ((-1, 0) : Int × Int) ≠ ((0, 0) : Int × Int) := by
  have t28 : cppDiv 28 2 = 14 := by decide
  have t32 : cppDiv 32 2 = 16 := by decide
  have t4 : cppDiv 4 2 = 2 := by decide
  refine ⟨?_, ?_, by decide⟩
  · intro e he hne
    simp only [hexEdges, hexVertex, padd, octOffsets, tileToScreenInt, mkRenderParams,
      scenarioMap, scenarioWorkspace, clearLSB, List.mem_cons, List.mem_singleton,
      List.not_mem_nil, or_false] at he
    rcases he with h | h | h | h | h | h | h | h <;> subst h <;>
      norm_num [crossZ, t28, t32, t4, RenderParams.doStaggerX] at hne ⊢
  · unfold screenToTileCoords
    norm_num [mkRenderParams, scenarioMap, scenarioWorkspace, clearLSB, nearestOf4,
      distSq, t28, t32, t4, RenderParams.doStaggerX, Fin.isValue]


/-- C1 witness: the amended statement evaluated in the §8.6 scenario at tile `(1,1)`. -/
theorem screenToTile_center_roundtrip_witness :
    (scenarioMap.orientation = Orientation.Hexagonal ∧
     0 < (mkRenderParams scenarioMap scenarioWorkspace).tileWidth ∧
     0 < (mkRenderParams scenarioMap scenarioWorkspace).tileHeight ∧
     0 ≤ scenarioMap.hexSideLength ∧
     scenarioMap.hexSideLength % 2 = 0 ∧
     scenarioMap.hexSideLength ≤ (if scenarioMap.staggerAxis = StaggerAxis.X
        then (mkRenderParams scenarioMap scenarioWorkspace).tileWidth
        else (mkRenderParams scenarioMap scenarioWorkspace).tileHeight) ∧
     (0 : Int) ≤ 1 ∧ (1 : Int) < scenarioWorkspace.width ∧
     (0 : Int) ≤ 1 ∧ (1 : Int) < scenarioWorkspace.height) ∧
    screenToTileCoords scenarioMap scenarioWorkspace
      (((tileToScreenInt scenarioMap scenarioWorkspace 1 1).1
          + (mkRenderParams scenarioMap scenarioWorkspace).tileWidth / 2 : Int) : ℚ)
      (((tileToScreenInt scenarioMap scenarioWorkspace 1 1).2
          + (mkRenderParams scenarioMap scenarioWorkspace).tileHeight / 2 : Int) : ℚ)
      = (1, 1) :=
  ⟨⟨by decide, by decide, by decide, by decide, by decide, by decide,
    by decide, by decide, by decide, by decide⟩,
   screenToTile_center_roundtrip scenarioMap scenarioWorkspace (by decide) (by decide)
     (by decide) (by decide) (by decide) (by decide) 1 1 (by decide) (by decide)
     (by decide) (by decide)⟩

end Tiled
